import Mathlib

/-!
Verification of the room game engine of an UNO-like two-player card server.

The JavaScript source is shallowly embedded: cards, rooms, and the
socket-handler entry points become pure Lean functions.  JS arrays used as
stacks (draw pile, discard pile) become lists whose top is the last element,
matching the `push` and `pop` calls of the source.  JS objects used as
string-keyed maps (hands, unoStatus, dealAcks) become association lists.
The in-place random `shuffle` becomes an explicit function parameter `sh`;
theorems that depend on shuffling assume only that `sh` permutes its input,
which covers every behaviour of the in-place Fisher-Yates of the source.
`Date.now()` becomes an explicit `now : Nat` parameter.  `setTimeout` handles
become state: `turnTimeout` stores the captured turn holder while the human
timer is armed, `cpuTimer` records whether the CPU think-time step is
scheduled, and the body of the timeout callback is embedded as a separate
function (`turnTimerFire`) applied to the room found at fire time.
Each handler returns a `StepOut`: the new room, how many `sendGameState`
broadcasts were emitted, and the error text sent back to the acting socket,
if any.
-/

namespace Uno

/-- Sentinel player id of the computer opponent (`CPU_ID` in the source). -/
def CPU_ID : String := "CPU"

/-- The four valid colors (`validColors` in the source). -/
def colors : List String := ["red", "yellow", "green", "blue"]

/-- A card as built by `createDeck`: numeric id, color (absent for unplayed
wilds), value (numbers only), and type string.  The source field `type` is
spelled `ctype` here. -/
structure Card where
  id : Nat
  color : Option String
  value : Option Nat
  ctype : String
deriving DecidableEq, Repr

/-- `createDeck` of the source: per color one 0, two of each 1..9, two each of
skip, reverse and draw2, then four wild and four wild4, ids counted from 1. -/
def createDeck : List Card :=
  let push := fun (st : Nat × List Card)
      (color : Option String) (value : Option Nat) (ctype : String) =>
    (st.1 + 1, st.2 ++ [⟨st.1, color, value, ctype⟩])
  let st : Nat × List Card := (1, [])
  let st := colors.foldl (fun st color =>
    let st := push st (some color) (some 0) "number"
    let st := (List.range 9).foldl (fun st k =>
      let st := push st (some color) (some (k + 1)) "number"
      push st (some color) (some (k + 1)) "number") st
    ["skip", "reverse", "draw2"].foldl (fun st action =>
      let st := push st (some color) none action
      push st (some color) none action) st) st
  let st := (List.range 4).foldl (fun st _ =>
    let st := push st none none "wild"
    push st none none "wild4") st
  st.2

/-- `canPlay(card, top)` of the source, with absent arguments made explicit
as `none` (JS undefined). -/
def canPlay (card top : Option Card) : Bool :=
  match card, top with
  | some c, some t =>
    if c.ctype = "wild" ∨ c.ctype = "wild4" then true
    else if c.color = t.color then true
    else if c.ctype = "number" ∧ t.ctype = "number" ∧ c.value = t.value then true
    else if c.ctype ≠ "number" ∧ c.ctype = t.ctype then true
    else false
  | _, _ => false

/-- Association-list update, modelling assignment to a string-keyed JS
object field. -/
def assocSet {κ α : Type} [DecidableEq κ] (m : List (κ × α)) (k : κ) (v : α) :
    List (κ × α) :=
  match m with
  | [] => [(k, v)]
  | (k', v') :: rest =>
    if k' = k then (k, v) :: rest else (k', v') :: assocSet rest k v

/-- Insert a player id into an acknowledgment set if not present. -/
def ackInsert (l : List String) (sid : String) : List String :=
  if sid ∈ l then l else l ++ [sid]

/-- The per-room state object of the source. -/
structure Room where
  code : String
  players : List (Option String)
  hands : List (String × List Card)
  deck : List Card
  discardPile : List Card
  currentTurn : Option String
  isGameOver : Bool
  winner : Option String
  message : String
  unoStatus : List (String × Bool)
  specialEffect : Option String
  turnTimeout : Option String
  cpuTimer : Bool
  gameId : Nat
  phase : String
  lastMoveAt : Nat
  dealAcks : List (Nat × List String)
  isCpuGame : Bool
  cpuDifficulty : Option String
deriving DecidableEq, Repr

/-- `room.hands[pid] || []` of the source. -/
def getHand (room : Room) (pid : String) : List Card :=
  (room.hands.lookup pid).getD []

/-- Assignment to `room.hands[pid]`. -/
def setHand (room : Room) (pid : String) (h : List Card) : Room :=
  { room with hands := assocSet room.hands pid h }

/-- `!!room.unoStatus[pid]` of the source (missing key reads as false). -/
def getUno (room : Room) (pid : String) : Bool :=
  (room.unoStatus.lookup pid).getD false

/-- Assignment to `room.unoStatus[pid]`. -/
def setUno (room : Room) (pid : String) (b : Bool) : Room :=
  { room with unoStatus := assocSet room.unoStatus pid b }

/-- `room.dealAcks[gen]` read as the set of player ids marked true. -/
def getAcks (room : Room) (gen : Nat) : List String :=
  (room.dealAcks.lookup gen).getD []

/-- `ackMap[seat]` of `startPlayingIfReady`: an empty seat never reads as
acknowledged. -/
def seatAcked (acks : List String) (seat : Option String) : Bool :=
  match seat with
  | some p => p ∈ acks
  | none => false

/-- JS truthiness of a seat entry: null and the empty string are falsy. -/
def seatTruthy (s : Option String) : Bool :=
  match s with
  | some x => x ≠ ""
  | none => false

/-- `players.find((id) => id && id !== pid)` of the source. -/
def findOtherPlayer (players : List (Option String)) (pid : String) :
    Option String :=
  players.findSome? (fun o =>
    match o with
    | some q => if q ≠ "" ∧ q ≠ pid then some q else none
    | none => none)

/-- The pile part of `drawOne`: given the draw pile and discard pile, recycle
all but the discard top into a freshly shuffled draw pile when the draw pile
is empty, then pop.  Returns the drawn card (if any) and both piles. -/
def drawOnePiles (sh : List Card → List Card) (deck discard : List Card) :
    Option Card × List Card × List Card :=
  let piles : List Card × List Card :=
    if deck.length = 0 then
      if discard.length ≤ 1 then (deck, discard)
      else (sh discard.dropLast, discard.getLast?.toList)
    else (deck, discard)
  match piles.1.getLast? with
  | none => (none, piles.1, piles.2)
  | some c => (some c, piles.1.dropLast, piles.2)

/-- `drawOne(room)` of the source. -/
def drawOne (sh : List Card → List Card) (room : Room) : Option Card × Room :=
  let p := drawOnePiles sh room.deck room.discardPile
  (p.1, { room with deck := p.2.1, discardPile := p.2.2 })

/-- Removes the first card with the given id, modelling
`findIndex` followed by `splice(index, 1)`. -/
def removeFirstById (hand : List Card) (cardId : Nat) : List Card :=
  match hand with
  | [] => []
  | c :: rest =>
    if c.id = cardId then rest else c :: removeFirstById rest cardId

/-- Outcome of one handler step: the resulting room, the number of
`sendGameState` broadcasts emitted, and the error message sent back to the
acting socket, if any. -/
structure StepOut where
  room : Room
  broadcasts : Nat
  errorToActor : Option String
deriving DecidableEq, Repr

/- Status messages of the source, without emoji and apostrophes. -/

def msgPenalty : String := "Penalty! You did not yell UNO. You draw 2 cards."
def msgTurnExpired : String := "Turn expired. Turn skipped."
def msgGameStarted : String := "Game started!"
def msgDealing : String := "Dealing cards..."
def msgGameOver : String := "Game over!"
def msgNotInHand : String := "Card not in hand."
def msgChooseColor : String := "Must choose a color for wild."
def msgCantPlay : String := "You cannot play that card."
def msgStillDealing : String := "Still dealing..."
def msgNotYourTurn : String := "Not your turn."
def msgNoCardsLeft : String := "No cards left to draw."
def msgDrewCard : String := "Player drew a card."
def msgUnoYelled : String := "UNO! A player yelled UNO!"
def msgYellUnoErr : String := "You can only yell UNO with 2 or fewer cards."
def msgRoomNotFound : String := "Room not found."
def msgRoomIsCpu : String := "This room is vs CPU."
def msgRoomFull : String := "Room is full."
def msgBothConnected : String := "Both players connected. Dealing cards..."

/-- `describeCard(card)` of the source (backtick-template strings rendered
via append). -/
def describeCard (card : Option Card) : String :=
  match card with
  | none => ""
  | some c =>
    let colorStr := (c.color).getD "no color"
    if c.ctype = "number" then colorStr ++ " " ++ toString ((c.value).getD 0)
    else if c.ctype = "draw2" then colorStr ++ " +2"
    else if c.ctype = "wild" then "Wild (" ++ colorStr ++ ")"
    else if c.ctype = "wild4" then "Wild +4 (" ++ colorStr ++ ")"
    else colorStr ++ " " ++ (if c.ctype = "skip" then "Skip" else "Reverse")

/-- `maybeApplyUnoPenalty(room, playerId, hand, afterPlayCount)`: consume the
called-last-card flag; with exactly one card left and no call, draw up to two
penalty cards into the hand.  Returns the room and the updated hand alias. -/
def maybeApplyUnoPenalty (sh : List Card → List Card) (now : Nat)
    (room : Room) (playerId : String) (hand : List Card)
    (afterPlayCount : Nat) : Room × List Card :=
  let unoCalled := getUno room playerId
  let room := setUno room playerId false
  if afterPlayCount = 1 ∧ unoCalled = false then
    let p1 := drawOne sh room
    let hand := match p1.1 with | some c => hand ++ [c] | none => hand
    let p2 := drawOne sh p1.2
    let hand := match p2.1 with | some c => hand ++ [c] | none => hand
    ({ p2.2 with message := msgPenalty, lastMoveAt := now }, hand)
  else (room, hand)

/-- `scheduleCpuTurn`: clear the CPU think-time handle, then re-arm it only
for a CPU game in the playing phase with the CPU holding the turn. -/
def scheduleCpuTurn (room : Room) : Room :=
  let room := { room with cpuTimer := false }
  if room.isCpuGame = false then room
  else if room.phase ≠ "playing" ∨ room.isGameOver then room
  else if room.currentTurn ≠ some CPU_ID then room
  else { room with cpuTimer := true }

/-- The arming part of `setTurnTimer`: clear the human timeout, bail outside
the playing phase, delegate to `scheduleCpuTurn` when the CPU is to play, and
otherwise arm the human timeout capturing the current turn holder. -/
def setTurnTimer (room : Room) : Room :=
  let room := { room with turnTimeout := none }
  if room.phase ≠ "playing" ∨ room.isGameOver then room
  else
    match room.currentTurn with
    | none => room
    | some t =>
      if t = CPU_ID then scheduleCpuTurn room
      else { room with turnTimeout := some t }

/-- The body of the `setTimeout` callback armed by `setTurnTimer`, applied to
the room looked up at fire time and to the captured turn holder. -/
def turnTimerFire (now : Nat) (room : Room) (captured : String) : StepOut :=
  if room.isGameOver then ⟨room, 0, none⟩
  else if room.phase ≠ "playing" then ⟨room, 0, none⟩
  else if room.currentTurn ≠ some captured then ⟨room, 0, none⟩
  else
    let other := (findOtherPlayer room.players captured).getD captured
    let room := { room with
      message := msgTurnExpired
      currentTurn := some other
      lastMoveAt := now
      turnTimeout := none }
    if room.currentTurn = some CPU_ID then ⟨scheduleCpuTurn room, 1, none⟩
    else ⟨setTurnTimer room, 1, none⟩

/-- Draw `n` cards to the hand of `oppId` (the draw2 and wild4 effect loops;
a missing opponent draws nothing, and a failed draw is skipped). -/
def drawNToHand (sh : List Card → List Card) (room : Room) (pid : String) :
    Nat → Room
  | 0 => room
  | Nat.succ m =>
    let p := drawOne sh room
    let r := match p.1 with
      | some c => setHand p.2 pid (getHand p.2 pid ++ [c])
      | none => p.2
    drawNToHand sh r pid m

/-- Dispatch of the effect loops on the optional opponent id. -/
def drawNTo (sh : List Card → List Card) (room : Room)
    (oppId : Option String) (n : Nat) : Room :=
  match oppId with
  | none => room
  | some pid => drawNToHand sh room pid n

/-- The mutation prefix of a validated play: remove the card from the hand
of the player, push it on the discard pile, and set or clear the wild4
marker. -/
def playCommit (room : Room) (playerId : String) (card : Card) : Room :=
  let hand := removeFirstById (getHand room playerId) card.id
  let room := setHand room playerId hand
  let room := { room with discardPile := room.discardPile ++ [card] }
  { room with
    specialEffect := if card.ctype = "wild4" then some "wild4" else none }

/-- The committed part of `applyPlay`, after validation: `playCommit`, then
the last-card penalty check on the spliced hand, then either finish the game
or apply draw effects, set the next turn holder and arm the next schedule. -/
def resolvePlay (sh : List Card → List Card) (now : Nat) (room : Room)
    (playerId : String) (card : Card) : StepOut :=
  let room := playCommit room playerId card
  let hand := getHand room playerId
  let pr := maybeApplyUnoPenalty sh now room playerId hand hand.length
  let room := setHand pr.1 playerId pr.2
  if pr.2.length = 0 then
    ⟨{ room with
        isGameOver := true
        winner := some playerId
        phase := "gameover"
        message := msgGameOver
        lastMoveAt := now
        turnTimeout := none
        cpuTimer := false }, 1, none⟩
  else
    let opponentId := findOtherPlayer room.players playerId
    let room := if card.ctype = "draw2" then drawNTo sh room opponentId 2 else room
    let room := if card.ctype = "wild4" then drawNTo sh room opponentId 4 else room
    let turnAgain := card.ctype = "skip" ∨ card.ctype = "reverse" ∨
      card.ctype = "draw2" ∨ card.ctype = "wild4"
    let room := { room with
      currentTurn := some (if turnAgain then playerId else opponentId.getD playerId)
      message := "Player played " ++ describeCard (some card)
      lastMoveAt := now }
    if room.currentTurn = some CPU_ID then ⟨scheduleCpuTurn room, 1, none⟩
    else ⟨setTurnTimer room, 1, none⟩

/-- `applyPlay(room, roomCode, playerId, cardId, chosenColor)` of the source:
validation of the card and chosen color, then `resolvePlay`. -/
def applyPlay (sh : List Card → List Card) (now : Nat) (room : Room)
    (playerId : String) (cardId : Nat) (chosenColor : Option String) :
    StepOut :=
  let hand := getHand room playerId
  match hand.find? (fun c => c.id == cardId) with
  | none => ⟨room, 0, some msgNotInHand⟩
  | some card =>
    if card.ctype = "wild" ∨ card.ctype = "wild4" then
      match chosenColor with
      | none => ⟨room, 0, some msgChooseColor⟩
      | some col =>
        if col ∈ colors then
          resolvePlay sh now room playerId { card with color := some col }
        else ⟨room, 0, some msgChooseColor⟩
    else
      if canPlay (some card) room.discardPile.getLast? then
        resolvePlay sh now room playerId card
      else ⟨room, 0, some msgCantPlay⟩

/-- The `playCard` socket handler: phase and turn validation, then
`applyPlay`, whose error (if any) is reported to the acting socket. -/
def playCard (sh : List Card → List Card) (now : Nat) (room : Room)
    (sid : String) (cardId : Nat) (chosenColor : Option String) : StepOut :=
  if room.isGameOver then ⟨room, 0, none⟩
  else if room.phase ≠ "playing" then ⟨room, 0, some msgStillDealing⟩
  else if room.currentTurn ≠ some sid then ⟨room, 0, some msgNotYourTurn⟩
  else applyPlay sh now room sid cardId chosenColor

/-- The `drawCard` socket handler: validation, forfeit of any called
last-card flag, one draw (reporting exhaustion without drawing), auto-play of
an immediately legal non-wild draw through `applyPlay`, and otherwise the
turn passes to the other occupied seat. -/
def drawCard (sh : List Card → List Card) (now : Nat) (room : Room)
    (sid : String) : StepOut :=
  if room.isGameOver then ⟨room, 0, none⟩
  else if room.phase ≠ "playing" then ⟨room, 0, some msgStillDealing⟩
  else if room.currentTurn ≠ some sid then ⟨room, 0, some msgNotYourTurn⟩
  else
    let room := setUno room sid false
    let room := { room with specialEffect := none }
    let p := drawOne sh room
    match p.1 with
    | none =>
      ⟨{ p.2 with message := msgNoCardsLeft, lastMoveAt := now }, 1, none⟩
    | some drawn =>
      let room := setHand p.2 sid (getHand p.2 sid ++ [drawn])
      let top := room.discardPile.getLast?
      if drawn.ctype ≠ "wild" ∧ drawn.ctype ≠ "wild4" ∧
          canPlay (some drawn) top then
        let hand := getHand room sid
        let hand := removeFirstById hand drawn.id ++ [drawn]
        let room := setHand room sid hand
        applyPlay sh now room sid drawn.id none
      else
        let room := { room with
          message := msgDrewCard
          lastMoveAt := now
          currentTurn := some ((findOtherPlayer room.players sid).getD sid) }
        if room.currentTurn = some CPU_ID then ⟨scheduleCpuTurn room, 1, none⟩
        else ⟨setTurnTimer room, 1, none⟩

/-- The `yellUno` socket handler: reject only a hand of more than two cards,
otherwise set the last-card flag, update the message and broadcast. -/
def yellUno (now : Nat) (room : Room) (sid : String) : StepOut :=
  let hand := getHand room sid
  if hand.length > 2 then ⟨room, 0, some msgYellUnoErr⟩
  else
    ⟨{ room with
        unoStatus := assocSet room.unoStatus sid true
        message := msgUnoYelled
        lastMoveAt := now }, 1, none⟩

/-- One seat step of the deal loop of `dealInitialCards`: skip an empty
seat, otherwise draw one card and append it to the hand of the seat. -/
def dealSeat (sh : List Card → List Card) (r : Room) (pid? : Option String) :
    Room :=
  if seatTruthy pid? = false then r
  else
    match pid? with
    | none => r
    | some pid =>
      let p := drawOne sh r
      match p.1 with
      | some c => setHand p.2 pid (getHand p.2 pid ++ [c])
      | none => p.2

/-- The 7-round round-robin deal loop of `dealInitialCards`. -/
def dealRounds (sh : List Card → List Card) (room : Room) : Room :=
  (List.range 7).foldl (fun r _ => r.players.foldl (dealSeat sh) r) room

/-- The deal procedure up to but excluding the instant CPU acknowledgment:
bump the generation, reset its acknowledgment set, build and shuffle a fresh
deck, deal 7 cards per occupied seat round-robin, place the first discard
(forcing a color onto a wild), pick the starter seat, clear both timers.
The random starter choice and the random color forced onto a wild first
card are explicit parameters. -/
def dealSetup (sh : List Card → List Card) (now : Nat)
    (starterIndex : Nat) (wildColor : String) (room : Room) : Room :=
  let room := { room with gameId := room.gameId + 1, phase := "dealing" }
  let room := { room with dealAcks := assocSet room.dealAcks room.gameId [] }
  let room := { room with
    deck := sh createDeck
    discardPile := []
    isGameOver := false
    winner := none
    specialEffect := none }
  let room := { room with
    hands := (room.players.filterMap id).map (fun p => (p, [])) }
  let room := dealRounds sh room
  let p := drawOne sh room
  let room := p.2
  let first := (p.1).getD ⟨9999, some "red", some 0, "number"⟩
  let first :=
    if first.ctype = "wild" ∨ first.ctype = "wild4" then
      { first with color := some wildColor }
    else first
  let room := { room with discardPile := room.discardPile ++ [first] }
  let room := { room with currentTurn := room.players.getD starterIndex none }
  { room with
    message := msgDealing
    lastMoveAt := now
    turnTimeout := none
    cpuTimer := false }

/-- The instant deal acknowledgment of the CPU seat in a CPU game. -/
def cpuAck (room : Room) : Room :=
  if room.isCpuGame then
    let acks := ackInsert (getAcks room room.gameId) CPU_ID
    { room with dealAcks := assocSet room.dealAcks room.gameId acks }
  else room

/-- `dealInitialCards(room, roomCode)` of the source: the deal procedure,
the instant CPU acknowledgment, and one broadcast. -/
def dealInitialCards (sh : List Card → List Card) (now : Nat)
    (starterIndex : Nat) (wildColor : String) (room : Room) : StepOut :=
  ⟨cpuAck (dealSetup sh now starterIndex wildColor room), 1, none⟩

/-- `startPlayingIfReady(room, roomCode)`: once both seats have acknowledged
the current generation, enter the playing phase, broadcast, and arm either
the CPU think-time schedule or the human turn timer. -/
def startPlayingIfReady (now : Nat) (room : Room) : StepOut :=
  let ackSet := getAcks room room.gameId
  let ready := seatAcked ackSet (room.players.getD 0 none) &&
    seatAcked ackSet (room.players.getD 1 none)
  if ready = false then ⟨room, 0, none⟩
  else
    let room := { room with
      phase := "playing"
      message := msgGameStarted
      lastMoveAt := now }
    if room.currentTurn = some CPU_ID then ⟨scheduleCpuTurn room, 1, none⟩
    else ⟨setTurnTimer room, 1, none⟩

/-- The `dealDone` socket handler: drop an acknowledgment for a stale
generation, otherwise record it and try to start playing. -/
def dealDone (now : Nat) (room : Room) (sid : String) (gen : Nat) : StepOut :=
  if room.gameId ≠ gen then ⟨room, 0, none⟩
  else
    let acks := ackInsert (getAcks room gen) sid
    let room := { room with dealAcks := assocSet room.dealAcks gen acks }
    startPlayingIfReady now room

/-- The `joinRoom` socket handler, on the looked-up room (`none` when the
room code is unknown): reject a missing, CPU, or full room, otherwise seat
the joiner and deal. -/
def joinRoom (sh : List Card → List Card) (now : Nat) (starterIndex : Nat)
    (wildColor : String) (room? : Option Room) (sid : String) :
    Option Room × Nat × Option String :=
  match room? with
  | none => (none, 0, some msgRoomNotFound)
  | some room =>
    if room.isCpuGame then (some room, 0, some msgRoomIsCpu)
    else if seatTruthy (room.players.getD 1 none) then
      (some room, 0, some msgRoomFull)
    else
      let room := { room with
        players := room.players.set 1 (some sid)
        message := msgBothConnected
        lastMoveAt := now }
      let out := dealInitialCards sh now starterIndex wildColor room
      (some out.room, out.broadcasts, out.errorToActor)

/-! Concrete sample states used by witnesses and counterexamples. -/

/-- A two-human room shell with empty piles, used as a base for the concrete
states below. -/
def baseRoom : Room where
  code := "1234"
  players := [some "alice", some "bob"]
  hands := []
  deck := []
  discardPile := []
  currentTurn := none
  isGameOver := false
  winner := none
  message := ""
  unoStatus := []
  specialEffect := none
  turnTimeout := none
  cpuTimer := false
  gameId := 1
  phase := "waiting"
  lastMoveAt := 0
  dealAcks := []
  isCpuGame := false
  cpuDifficulty := none

def cRed5 : Card := ⟨10, some "red", some 5, "number"⟩
def cGreen3 : Card := ⟨11, some "green", some 3, "number"⟩
def cBlue2 : Card := ⟨12, some "blue", some 2, "number"⟩
def cRed7 : Card := ⟨20, some "red", some 7, "number"⟩
def cYellow1 : Card := ⟨21, some "yellow", some 1, "number"⟩
def cRedSkip : Card := ⟨30, some "red", none, "skip"⟩
def cWild : Card := ⟨101, none, none, "wild"⟩

/-- Playing-phase room in which alice holds two cards, has not called last
card, and the draw pile plus recyclable discard cannot supply two penalty
cards (empty deck, one discard card). -/
def roomC1 : Room := { baseRoom with
  hands := [("alice", [cRed5, cGreen3]), ("bob", [cBlue2])]
  discardPile := [cRed7]
  currentTurn := some "alice"
  phase := "playing" }

/-- Playing-phase room in which alice holds a plain wild (and two covers so
no penalty interferes). -/
def roomC2 : Room := { baseRoom with
  hands := [("alice", [cWild, cRed5, cGreen3]), ("bob", [cBlue2])]
  deck := [cRed7]
  discardPile := [cYellow1]
  currentTurn := some "alice"
  phase := "playing" }

/-- Playing-phase room in which a draw can yield no card: empty draw pile
and a single discard card. -/
def roomC3 : Room := { baseRoom with
  hands := [("alice", [cRed5]), ("bob", [cBlue2])]
  discardPile := [cRed7]
  currentTurn := some "alice"
  phase := "playing" }

/-- Room with an empty draw pile and a two-card discard pile. -/
def roomC6 : Room := { baseRoom with
  discardPile := [cRed5, cRed7] }

/-- Dealing-phase room of generation 1 in which only alice has acknowledged
the deal so far. -/
def roomC4 : Room := { baseRoom with
  phase := "dealing"
  currentTurn := some "bob"
  dealAcks := [(1, ["alice"])]
  deck := [cRed5, cGreen3]
  discardPile := [cRed7]
  hands := [("alice", [cBlue2]), ("bob", [cWild])] }

/-- Playing-phase variant of the previous room, with the turn on bob. -/
def roomC5 : Room := { roomC4 with phase := "playing" }

/-- The deck composition demanded by the specification, as a checkable
predicate (written from the words of the spec, to be compared against
`createDeck`): per color one 0, two of each 1..9, two each of skip, reverse
and draw2 (25 cards per color), plus four wild and four wild4 without a
color. -/
def checkDeckComposition (deck : List Card) : Bool :=
  colors.all (fun col =>
    deck.countP (fun c =>
      c.ctype == "number" && c.color == some col && c.value == some 0) == 1 &&
    (List.range 9).all (fun k =>
      deck.countP (fun c =>
        c.ctype == "number" && c.color == some col &&
          c.value == some (k + 1)) == 2) &&
    ["skip", "reverse", "draw2"].all (fun a =>
      deck.countP (fun c => c.ctype == a && c.color == some col) == 2) &&
    deck.countP (fun c => c.color == some col) == 25) &&
  deck.countP (fun c => c.ctype == "wild" && c.color == none) == 4 &&
  deck.countP (fun c => c.ctype == "wild4" && c.color == none) == 4

/-- Playing-phase room in which alice holds two cards, has not called last
card, and the draw pile holds enough cards for both penalty draws. -/
def roomW1 : Room := { baseRoom with
  hands := [("alice", [cRed5, cGreen3]), ("bob", [cBlue2])]
  deck := [cYellow1, cRedSkip]
  discardPile := [cRed7]
  currentTurn := some "alice"
  phase := "playing" }

/-- Playing-phase room in which alice holds a red Skip and two covers. -/
def roomW2 : Room := { baseRoom with
  hands := [("alice", [cRedSkip, cRed5, cGreen3]), ("bob", [cBlue2])]
  deck := [cYellow1]
  discardPile := [cRed7]
  currentTurn := some "alice"
  phase := "playing" }

/-! Theorems. -/

set_option maxRecDepth 100000 in
/-- C8: every freshly built deck has exactly 108 cards with pairwise
distinct ids, and per color exactly one 0, two of each number 1 to 9, two
Skip, two Reverse and two Draw-Two (25 cards per color), plus four Wild and
four Wild-Draw-Four with no color set. -/
theorem createDeck_composition :
    createDeck.length = 108 ∧ (createDeck.map (fun c => c.id)).Nodup ∧
    checkDeckComposition createDeck = true := by
  refine ⟨by decide, ?_, by decide⟩
  have h : createDeck.map (fun c => c.id) = List.range' 1 108 := by decide
  rw [h]
  exact List.nodup_range' 1 108

/-- C7: canPlay holds for a present card on a present top exactly when the
card is wild or wild4, or its color matches the top color, or both are
number cards of equal value, or both are non-number cards of the identical
action type; and it is false whenever either argument is absent. -/
theorem canPlay_spec :
    (∀ c t : Card, canPlay (some c) (some t) = true ↔
      ((c.ctype = "wild" ∨ c.ctype = "wild4") ∨ c.color = t.color ∨
       (c.ctype = "number" ∧ t.ctype = "number" ∧ c.value = t.value) ∨
       (c.ctype ≠ "number" ∧ c.ctype = t.ctype))) ∧
    (∀ t, canPlay none t = false) ∧
    (∀ c, canPlay c none = false) := by
  refine ⟨?_, ?_, ?_⟩
  · intro c t
    simp only [canPlay]
    split_ifs with h1 h2 h3 h4
    · exact iff_of_true rfl (Or.inl h1)
    · exact iff_of_true rfl (Or.inr (Or.inl h2))
    · exact iff_of_true rfl (Or.inr (Or.inr (Or.inl h3)))
    · exact iff_of_true rfl (Or.inr (Or.inr (Or.inr h4)))
    · exact iff_of_false (by simp) (by tauto)
  · intro t
    cases t <;> rfl
  · intro c
    cases c <;> rfl

/-- C10: yellUno enforces no precondition besides hand size: any requester
whose recorded hand holds at most two cards (including an absent hand and a
requester not seated in the room), in any phase and regardless of the turn
holder, gets the last-card flag set, the message updated, and a
broadcast. -/
theorem yellUno_always (now : Nat) (room : Room) (sid : String)
    (h : (getHand room sid).length ≤ 2) :
    yellUno now room sid =
      ⟨{ room with unoStatus := assocSet room.unoStatus sid true, message := msgUnoYelled, lastMoveAt := now }, 1, none⟩ := by
  unfold yellUno
  simp [Nat.not_lt.mpr h]

/-- Witness for C10: an unseated requester, in the waiting phase, with no
recorded hand. -/
theorem yellUno_always_witness :
    yellUno 5 baseRoom "carol" =
      ⟨{ baseRoom with unoStatus := assocSet baseRoom.unoStatus "carol" true, message := msgUnoYelled, lastMoveAt := 5 }, 1, none⟩ :=
  yellUno_always 5 baseRoom "carol" (by decide)

/-- Counterexample to C1 as stated: in a playing-phase room where alice (the
turn holder) plays down to one card without having called last card, but the
draw pile is empty and the discard pile cannot supply two penalty cards, the
resolution ends with alice holding 2 cards, not 3. -/
theorem applyPlay_uno_penalty_cex :
    roomC1.phase = "playing" ∧ roomC1.currentTurn = some "alice" ∧
    roomC1.isGameOver = false ∧ getUno roomC1 "alice" = false ∧
    (getHand roomC1 "alice").length = 2 ∧
    (applyPlay id 0 roomC1 "alice" 10 none).errorToActor = none ∧
    ¬ (getHand (applyPlay id 0 roomC1 "alice" 10 none).room "alice").length = 3 := by
  decide

/-- Counterexample to C2 as stated: a plain Wild is not a number card (so an
action card in the sense of the claim), yet playing it passes the turn to
the opponent instead of keeping it. -/
theorem playCard_turn_rule_cex :
    roomC2.isGameOver = false ∧ roomC2.phase = "playing" ∧
    roomC2.currentTurn = some "alice" ∧
    (getHand roomC2 "alice").find? (fun c => c.id == 101) = some cWild ∧
    cWild.ctype = "wild" ∧
    (playCard id 0 roomC2 "alice" 101 (some "red")).errorToActor = none ∧
    (playCard id 0 roomC2 "alice" 101 (some "red")).room.isGameOver = false ∧
    ¬ (playCard id 0 roomC2 "alice" 101 (some "red")).room.currentTurn = some "alice" ∧
    (playCard id 0 roomC2 "alice" 101 (some "red")).room.currentTurn = some "bob" := by
  decide

/-- Counterexample to C3 as stated: when the turn holder draws and neither
the draw pile nor discard recycling yields a card, the no-cards message is
set and the hand is unchanged, but the turn does not pass to the other
occupied seat: it stays with the actor. -/
theorem drawCard_exhausted_cex :
    roomC3.isGameOver = false ∧ roomC3.phase = "playing" ∧
    roomC3.currentTurn = some "alice" ∧ roomC3.players.getD 1 none = some "bob" ∧
    (drawCard id 0 roomC3 "alice").room.message = msgNoCardsLeft ∧
    getHand (drawCard id 0 roomC3 "alice").room "alice" = getHand roomC3 "alice" ∧
    ¬ (drawCard id 0 roomC3 "alice").room.currentTurn = some "bob" ∧
    (drawCard id 0 roomC3 "alice").room.currentTurn = some "alice" := by
  decide

/-- Counterexample to C6 as stated: drawOne on an empty draw pile with a
two-card discard pile returns a card, but the resulting draw pile holds
prior discard size minus 2 cards (here 0), not prior discard size minus 1:
the returned card is popped from the recycled pile. -/
theorem drawOne_recycle_cex :
    roomC6.deck.length = 0 ∧ roomC6.discardPile.length = 2 ∧
    (drawOne id roomC6).1.isSome = true ∧
    (drawOne id roomC6).2.discardPile = [cRed7] ∧
    ¬ (drawOne id roomC6).2.deck.length = roomC6.discardPile.length - 1 ∧
    (drawOne id roomC6).2.deck.length = roomC6.discardPile.length - 2 := by
  decide

/-- C9: every validation rejection (acting out of turn on a play or a draw,
playing a card not in hand, playing a wild without a valid chosen color,
playing a card not legal on the discard top, joining a missing or full
room, calling last card with more than two cards) leaves the room exactly
as it was, sends no broadcast, and reports a descriptive error only to the
acting socket. -/
theorem rejected_intents_noop :
    (∀ sh now (room : Room) sid cid col?, room.isGameOver = false →
      room.phase = "playing" → room.currentTurn ≠ some sid →
      playCard sh now room sid cid col? = ⟨room, 0, some msgNotYourTurn⟩) ∧
    (∀ sh now (room : Room) sid, room.isGameOver = false →
      room.phase = "playing" → room.currentTurn ≠ some sid →
      drawCard sh now room sid = ⟨room, 0, some msgNotYourTurn⟩) ∧
    (∀ sh now (room : Room) sid cid col?, room.isGameOver = false →
      room.phase = "playing" → room.currentTurn = some sid →
      (getHand room sid).find? (fun c => c.id == cid) = none →
      playCard sh now room sid cid col? = ⟨room, 0, some msgNotInHand⟩) ∧
    (∀ sh now (room : Room) sid cid col? card, room.isGameOver = false →
      room.phase = "playing" → room.currentTurn = some sid →
      (getHand room sid).find? (fun c => c.id == cid) = some card →
      (card.ctype = "wild" ∨ card.ctype = "wild4") →
      (∀ col, col? = some col → col ∉ colors) →
      playCard sh now room sid cid col? = ⟨room, 0, some msgChooseColor⟩) ∧
    (∀ sh now (room : Room) sid cid col? card, room.isGameOver = false →
      room.phase = "playing" → room.currentTurn = some sid →
      (getHand room sid).find? (fun c => c.id == cid) = some card →
      ¬ (card.ctype = "wild" ∨ card.ctype = "wild4") →
      canPlay (some card) room.discardPile.getLast? = false →
      playCard sh now room sid cid col? = ⟨room, 0, some msgCantPlay⟩) ∧
    (∀ sh now si wc sid,
      joinRoom sh now si wc none sid = (none, 0, some msgRoomNotFound)) ∧
    (∀ sh now si wc (room : Room) sid, room.isCpuGame = false →
      seatTruthy (room.players.getD 1 none) = true →
      joinRoom sh now si wc (some room) sid = (some room, 0, some msgRoomFull)) ∧
    (∀ now (room : Room) sid, 2 < (getHand room sid).length →
      yellUno now room sid = ⟨room, 0, some msgYellUnoErr⟩) := by
  refine ⟨?_, ?_, ?_, ?_, ?_, ?_, ?_, ?_⟩
  · intro sh now room sid cid col? h1 h2 h3
    simp [playCard, h1, h2, h3]
  · intro sh now room sid h1 h2 h3
    simp [drawCard, h1, h2, h3]
  · intro sh now room sid cid col? h1 h2 h3 h4
    simp [playCard, applyPlay, h1, h2, h3, h4]
  · intro sh now room sid cid col? card h1 h2 h3 h4 h5 h6
    simp only [playCard, h1, h2, h3, applyPlay, h4]
    cases col? with
    | none => simp [h5]
    | some col => simp [h5, h6 col rfl]
  · intro sh now room sid cid col? card h1 h2 h3 h4 h5 h6
    simp [playCard, applyPlay, h1, h2, h3, h4, h5, h6]
  · intro sh now si wc sid
    rfl
  · intro sh now si wc room sid h1 h2
    dsimp only [joinRoom]
    rw [h1, h2]
    simp
  · intro now room sid h
    simp [yellUno, h]

/-- Witness for C9: each rejection case applied at a concrete input. -/
theorem rejected_intents_noop_witness :
    playCard id 0 roomC2 "bob" 12 none = ⟨roomC2, 0, some msgNotYourTurn⟩ ∧
    drawCard id 0 roomC2 "bob" = ⟨roomC2, 0, some msgNotYourTurn⟩ ∧
    playCard id 0 roomC2 "alice" 999 none = ⟨roomC2, 0, some msgNotInHand⟩ ∧
    playCard id 0 roomC2 "alice" 101 (some "pink") = ⟨roomC2, 0, some msgChooseColor⟩ ∧
    playCard id 0 roomC2 "alice" 11 none = ⟨roomC2, 0, some msgCantPlay⟩ ∧
    joinRoom id 0 0 "red" none "carol" = (none, 0, some msgRoomNotFound) ∧
    joinRoom id 0 0 "red" (some roomC2) "carol" = (some roomC2, 0, some msgRoomFull) ∧
    yellUno 0 roomC2 "alice" = ⟨roomC2, 0, some msgYellUnoErr⟩ :=
  ⟨rejected_intents_noop.1 id 0 roomC2 "bob" 12 none (by decide) (by decide) (by decide),
   rejected_intents_noop.2.1 id 0 roomC2 "bob" (by decide) (by decide) (by decide),
   rejected_intents_noop.2.2.1 id 0 roomC2 "alice" 999 none (by decide) (by decide) (by decide) (by decide),
   rejected_intents_noop.2.2.2.1 id 0 roomC2 "alice" 101 (some "pink") cWild (by decide) (by decide) (by decide) (by decide) (by decide) (by decide),
   rejected_intents_noop.2.2.2.2.1 id 0 roomC2 "alice" 11 none cGreen3 (by decide) (by decide) (by decide) (by decide) (by decide) (by decide),
   rejected_intents_noop.2.2.2.2.2.1 id 0 0 "red" "carol",
   rejected_intents_noop.2.2.2.2.2.2.1 id 0 0 "red" roomC2 "carol" (by decide) (by decide),
   rejected_intents_noop.2.2.2.2.2.2.2 0 roomC2 "alice" (by decide)⟩

/-! Helper lemmas: association lists, hands, draws, and frame facts. -/

theorem lookup_assocSet_self {κ α : Type} [DecidableEq κ]
    (m : List (κ × α)) (k : κ) (v : α) :
    (assocSet m k v).lookup k = some v := by
  induction m with
  | nil => simp [assocSet, List.lookup]
  | cons kv rest ih =>
    rcases kv with ⟨k1, v1⟩
    by_cases h : k1 = k
    · subst h
      simp [assocSet, List.lookup]
    · have hb : (k == k1) = false := beq_eq_false_iff_ne.mpr (Ne.symm h)
      simp [assocSet, h, List.lookup, hb, ih]

theorem lookup_assocSet_ne {κ α : Type} [DecidableEq κ]
    (m : List (κ × α)) (k k' : κ) (v : α) (h : k' ≠ k) :
    (assocSet m k v).lookup k' = m.lookup k' := by
  induction m with
  | nil =>
    have hb : (k' == k) = false := beq_eq_false_iff_ne.mpr h
    simp [assocSet, List.lookup, hb]
  | cons kv rest ih =>
    rcases kv with ⟨k1, v1⟩
    by_cases hk : k1 = k
    · subst hk
      have hb : (k' == k1) = false := beq_eq_false_iff_ne.mpr h
      simp [assocSet, List.lookup, hb]
    · by_cases hk' : k' = k1
      · subst hk'
        simp [assocSet, hk, List.lookup]
      · have hb : (k' == k1) = false := beq_eq_false_iff_ne.mpr hk'
        simp [assocSet, hk, List.lookup, hb, ih]

@[simp] theorem getHand_setHand_self (room : Room) (pid : String)
    (h : List Card) : getHand (setHand room pid h) pid = h := by
  simp [getHand, setHand, lookup_assocSet_self]

theorem getHand_setHand_ne (room : Room) (pid q : String) (h : List Card)
    (hne : q ≠ pid) : getHand (setHand room pid h) q = getHand room q := by
  simp [getHand, setHand, lookup_assocSet_ne _ _ _ _ hne]

@[simp] theorem getUno_setUno_self (room : Room) (pid : String) (b : Bool) :
    getUno (setUno room pid b) pid = b := by
  simp [getUno, setUno, lookup_assocSet_self]

@[simp] theorem getHand_setUno (room : Room) (pid q : String) (b : Bool) :
    getHand (setUno room pid b) q = getHand room q := rfl

@[simp] theorem getUno_setHand (room : Room) (pid q : String)
    (h : List Card) : getUno (setHand room pid h) q = getUno room q := rfl

@[simp] theorem drawOne_hands (sh : List Card → List Card) (room : Room) :
    ((drawOne sh room).2).hands = room.hands := rfl

@[simp] theorem drawOne_players (sh : List Card → List Card) (room : Room) :
    ((drawOne sh room).2).players = room.players := rfl

@[simp] theorem drawOne_currentTurn (sh : List Card → List Card)
    (room : Room) : ((drawOne sh room).2).currentTurn = room.currentTurn := rfl

@[simp] theorem drawOne_isGameOver (sh : List Card → List Card)
    (room : Room) : ((drawOne sh room).2).isGameOver = room.isGameOver := rfl

@[simp] theorem drawOne_winner (sh : List Card → List Card) (room : Room) :
    ((drawOne sh room).2).winner = room.winner := rfl

@[simp] theorem drawOne_unoStatus (sh : List Card → List Card)
    (room : Room) : ((drawOne sh room).2).unoStatus = room.unoStatus := rfl

@[simp] theorem drawOne_phase (sh : List Card → List Card) (room : Room) :
    ((drawOne sh room).2).phase = room.phase := rfl

@[simp] theorem drawOne_message (sh : List Card → List Card) (room : Room) :
    ((drawOne sh room).2).message = room.message := rfl

@[simp] theorem drawOne_turnTimeout (sh : List Card → List Card)
    (room : Room) : ((drawOne sh room).2).turnTimeout = room.turnTimeout := rfl

@[simp] theorem drawOne_cpuTimer (sh : List Card → List Card) (room : Room) :
    ((drawOne sh room).2).cpuTimer = room.cpuTimer := rfl

@[simp] theorem drawOne_gameId (sh : List Card → List Card) (room : Room) :
    ((drawOne sh room).2).gameId = room.gameId := rfl

@[simp] theorem drawOne_dealAcks (sh : List Card → List Card) (room : Room) :
    ((drawOne sh room).2).dealAcks = room.dealAcks := rfl

@[simp] theorem drawOne_isCpuGame (sh : List Card → List Card)
    (room : Room) : ((drawOne sh room).2).isCpuGame = room.isCpuGame := rfl

@[simp] theorem drawOne_specialEffect (sh : List Card → List Card)
    (room : Room) :
    ((drawOne sh room).2).specialEffect = room.specialEffect := rfl

@[simp] theorem getHand_drawOne (sh : List Card → List Card) (room : Room)
    (q : String) : getHand ((drawOne sh room).2) q = getHand room q := rfl

@[simp] theorem getUno_drawOne (sh : List Card → List Card) (room : Room)
    (q : String) : getUno ((drawOne sh room).2) q = getUno room q := rfl

theorem drawOne_none (sh : List Card → List Card) (room : Room)
    (hdeck : room.deck = []) (hdisc : room.discardPile.length ≤ 1) :
    drawOne sh room = (none, room) := by
  simp [drawOne, drawOnePiles, hdeck, hdisc]
  rw [← hdeck]

theorem drawOnePiles_some (sh : List Card → List Card)
    (hsh : ∀ l : List Card, (sh l).length = l.length)
    (deck discard : List Card)
    (h : 1 ≤ deck.length ∨ 2 ≤ discard.length) :
    ((drawOnePiles sh deck discard).1.isSome = true) ∧
    (drawOnePiles sh deck discard).2.1.length + 1 +
      (drawOnePiles sh deck discard).2.2.length
        = deck.length + discard.length := by
  unfold drawOnePiles
  by_cases hd : deck.length = 0
  · have hd2 : 2 ≤ discard.length := by
      rcases h with h1 | h2
      · omega
      · exact h2
    have hle : ¬ discard.length ≤ 1 := by omega
    have hlen : (sh discard.dropLast).length = discard.length - 1 := by
      rw [hsh]
      exact List.length_dropLast discard
    have hne : (sh discard.dropLast) ≠ [] := by
      intro hnil
      rw [hnil] at hlen
      simp at hlen
      omega
    obtain ⟨c, hc⟩ := Option.isSome_iff_exists.mp
      (List.getLast?_isSome.mpr hne)
    have hdne : discard ≠ [] := by
      intro hnil
      rw [hnil] at hd2
      simp at hd2
    obtain ⟨t, ht⟩ := Option.isSome_iff_exists.mp
      (List.getLast?_isSome.mpr hdne)
    simp only [hd, hle, ite_true, ite_false, if_true, if_false, hc, ht]
    constructor
    · rfl
    · have : (sh discard.dropLast).dropLast.length
          = (sh discard.dropLast).length - 1 :=
        List.length_dropLast _
      simp only [Option.toList_some, List.length_singleton]
      omega
  · have hne : deck ≠ [] := by
      intro hnil
      rw [hnil] at hd
      simp at hd
    obtain ⟨c, hc⟩ := Option.isSome_iff_exists.mp
      (List.getLast?_isSome.mpr hne)
    simp only [hd, ite_true, ite_false, if_true, if_false, hc]
    constructor
    · rfl
    · have : deck.dropLast.length = deck.length - 1 := List.length_dropLast _
      omega

theorem drawOne_some (sh : List Card → List Card)
    (hsh : ∀ l : List Card, (sh l).length = l.length) (room : Room)
    (h : 1 ≤ room.deck.length ∨ 2 ≤ room.discardPile.length) :
    (drawOne sh room).1.isSome = true ∧
    (drawOne sh room).2.deck.length + 1 +
      (drawOne sh room).2.discardPile.length
        = room.deck.length + room.discardPile.length := by
  have hp := drawOnePiles_some sh hsh room.deck room.discardPile h
  exact ⟨hp.1, hp.2⟩

theorem drawOnePiles_discard_pos (sh : List Card → List Card)
    (deck discard : List Card) (hd : 1 ≤ discard.length) :
    1 ≤ (drawOnePiles sh deck discard).2.2.length := by
  unfold drawOnePiles
  by_cases h0 : deck.length = 0
  · by_cases h1 : discard.length ≤ 1
    · simp only [h0, h1, ite_true, if_true]
      cases hg : deck.getLast? <;> simp [hg, hd]
    · have hdne : discard ≠ [] := by
        intro hnil
        rw [hnil] at hd
        simp at hd
      obtain ⟨t, ht⟩ := Option.isSome_iff_exists.mp
        (List.getLast?_isSome.mpr hdne)
      simp only [h0, h1, ite_true, ite_false, if_true, if_false, ht]
      cases hg : (sh discard.dropLast).getLast? <;> simp [hg]
  · simp only [h0, ite_false, if_false]
    cases hg : deck.getLast? <;> simp [hg, hd]

theorem drawOne_discard_pos (sh : List Card → List Card) (room : Room)
    (hd : 1 ≤ room.discardPile.length) :
    1 ≤ (drawOne sh room).2.discardPile.length :=
  drawOnePiles_discard_pos sh room.deck room.discardPile hd

/-- C6 amended: drawOne on an empty draw pile with more than one discard
card recycles all but the discard top into a freshly shuffled draw pile and
then pops the returned card from it, so the resulting draw pile size equals
the prior discard size minus 2, the discard pile becomes exactly the
preserved prior top, and a card is returned; with at most one discard card
it returns no card and leaves the room unchanged. -/
theorem drawOne_recycle (sh : List Card → List Card)
    (hsh : ∀ l : List Card, (sh l).length = l.length) (room : Room)
    (hdeck : room.deck = []) :
    (2 ≤ room.discardPile.length →
      (drawOne sh room).1.isSome = true ∧
      (drawOne sh room).2.deck.length + 2 = room.discardPile.length ∧
      (drawOne sh room).2.discardPile = room.discardPile.getLast?.toList) ∧
    (room.discardPile.length ≤ 1 → drawOne sh room = (none, room)) := by
  constructor
  · intro h2
    have hle : ¬ room.discardPile.length ≤ 1 := by omega
    have h0 : room.deck.length = 0 := by rw [hdeck]; rfl
    have hlen : (sh room.discardPile.dropLast).length
        = room.discardPile.length - 1 := by
      rw [hsh]
      exact List.length_dropLast room.discardPile
    have hne : (sh room.discardPile.dropLast) ≠ [] := by
      intro hnil
      rw [hnil] at hlen
      simp at hlen
      omega
    obtain ⟨c, hc⟩ := Option.isSome_iff_exists.mp
      (List.getLast?_isSome.mpr hne)
    have hdl : (sh room.discardPile.dropLast).dropLast.length
        = (sh room.discardPile.dropLast).length - 1 :=
      List.length_dropLast _
    unfold drawOne drawOnePiles
    simp only [h0, hle, ite_true, ite_false, if_true, if_false, hc]
    refine ⟨by simp, ?_, by trivial⟩
    omega
  · intro h1
    exact drawOne_none sh room hdeck h1

/-- Witness for the amended C6, at a concrete empty-deck room with a
two-card discard pile and the identity permutation. -/
theorem drawOne_recycle_witness :
    (drawOne id roomC6).1.isSome = true ∧
    (drawOne id roomC6).2.deck.length + 2 = roomC6.discardPile.length ∧
    (drawOne id roomC6).2.discardPile = roomC6.discardPile.getLast?.toList :=
  (drawOne_recycle id (fun _ => rfl) roomC6 (by decide)).1 (by decide)

/-- C3 amended: when the turn holder draws during the playing phase and
neither the draw pile nor discard recycling yields a card, the engine sets
the no-cards-left message and broadcasts, the hand of the actor is
unchanged, but the turn does not pass: currentTurn remains the actor (only
the separate CPU draw path passes the turn on exhaustion). -/
theorem drawCard_exhausted (sh : List Card → List Card) (now : Nat)
    (room : Room) (sid : String)
    (hgo : room.isGameOver = false) (hphase : room.phase = "playing")
    (hturn : room.currentTurn = some sid)
    (hdeck : room.deck = []) (hdisc : room.discardPile.length ≤ 1) :
    drawCard sh now room sid =
      ⟨{ setUno room sid false with specialEffect := none, message := msgNoCardsLeft, lastMoveAt := now }, 1, none⟩ ∧
    (drawCard sh now room sid).room.currentTurn = some sid ∧
    getHand (drawCard sh now room sid).room sid = getHand room sid := by
  have hd2 : ({ setUno room sid false with specialEffect := none } : Room).deck = [] := hdeck
  have hc2 : ({ setUno room sid false with specialEffect := none } : Room).discardPile.length ≤ 1 := hdisc
  have hnone := drawOne_none sh ({ setUno room sid false with specialEffect := none } : Room) hd2 hc2
  have key : drawCard sh now room sid =
      ⟨{ setUno room sid false with specialEffect := none, message := msgNoCardsLeft, lastMoveAt := now }, 1, none⟩ := by
    unfold drawCard
    rw [hgo, hphase, hturn]
    simp only [Bool.false_eq_true, if_false, ite_false, ne_eq,
      not_true_eq_false, ite_true, if_true, reduceIte]
    rw [hnone]
  refine ⟨key, ?_, ?_⟩
  · rw [key]
    exact hturn
  · rw [key]
    rfl

/-- Witness for the amended C3, at a concrete exhausted room. -/
theorem drawCard_exhausted_witness :
    drawCard id 7 roomC3 "alice" =
      ⟨{ setUno roomC3 "alice" false with specialEffect := none, message := msgNoCardsLeft, lastMoveAt := 7 }, 1, none⟩ ∧
    (drawCard id 7 roomC3 "alice").room.currentTurn = some "alice" ∧
    getHand (drawCard id 7 roomC3 "alice").room "alice" = getHand roomC3 "alice" :=
  drawCard_exhausted id 7 roomC3 "alice" (by decide) (by decide) (by decide)
    (by decide) (by decide)

/-- C5: when the human turn-timeout callback fires on a live playing room
whose turn holder still equals the captured holder, the turn passes to the
other occupied seat, the turn-expired message is set, one broadcast is
emitted, and exactly the appropriate next schedule is armed (the CPU
think-time step when the new holder is the CPU of a CPU game, the human
timer otherwise); when the captured holder no longer matches, the firing is
a no-op with no broadcast. -/
theorem turnTimerFire_spec :
    (∀ now (room : Room) captured other,
      room.isGameOver = false → room.phase = "playing" →
      room.currentTurn = some captured →
      findOtherPlayer room.players captured = some other →
      (other = CPU_ID → room.isCpuGame = true) →
      room.cpuTimer = false →
      (turnTimerFire now room captured).room.currentTurn = some other ∧
      (turnTimerFire now room captured).room.message = msgTurnExpired ∧
      (turnTimerFire now room captured).broadcasts = 1 ∧
      (if other = CPU_ID
       then (turnTimerFire now room captured).room.cpuTimer = true ∧
            (turnTimerFire now room captured).room.turnTimeout = none
       else (turnTimerFire now room captured).room.turnTimeout = some other ∧
            (turnTimerFire now room captured).room.cpuTimer = false)) ∧
    (∀ now (room : Room) captured, room.currentTurn ≠ some captured →
      turnTimerFire now room captured = ⟨room, 0, none⟩) := by
  constructor
  · intro now room captured other hgo hph ht hopp hcpu hct
    unfold turnTimerFire
    rw [hgo, hph, ht, hopp]
    by_cases hb : other = CPU_ID
    · simp [hb, scheduleCpuTurn, hcpu hb, hph, hgo]
    · simp [hb, setTurnTimer, scheduleCpuTurn, hph, hgo, hct]
  · intro now room captured hne
    unfold turnTimerFire
    split_ifs with h1 h2 <;> rfl

/-- Witness for C5: a concrete playing room where the captured holder still
holds the turn and the other seat is human. -/
theorem turnTimerFire_spec_witness :
    (turnTimerFire 9 roomC5 "bob").room.currentTurn = some "alice" ∧
    (turnTimerFire 9 roomC5 "bob").room.message = msgTurnExpired ∧
    (turnTimerFire 9 roomC5 "bob").broadcasts = 1 ∧
    (if "alice" = CPU_ID
     then (turnTimerFire 9 roomC5 "bob").room.cpuTimer = true ∧
          (turnTimerFire 9 roomC5 "bob").room.turnTimeout = none
     else (turnTimerFire 9 roomC5 "bob").room.turnTimeout = some "alice" ∧
          (turnTimerFire 9 roomC5 "bob").room.cpuTimer = false) :=
  turnTimerFire_spec.1 9 roomC5 "bob" "alice" (by decide) (by decide)
    (by decide) (by decide) (by decide) (by decide)

/-! Frame lemmas for the scheduling functions and the deal loop. -/

@[simp] theorem scheduleCpuTurn_phase (room : Room) :
    (scheduleCpuTurn room).phase = room.phase := by
  simp only [scheduleCpuTurn]
  split_ifs <;> rfl

@[simp] theorem scheduleCpuTurn_currentTurn (room : Room) :
    (scheduleCpuTurn room).currentTurn = room.currentTurn := by
  simp only [scheduleCpuTurn]
  split_ifs <;> rfl

@[simp] theorem scheduleCpuTurn_isGameOver (room : Room) :
    (scheduleCpuTurn room).isGameOver = room.isGameOver := by
  simp only [scheduleCpuTurn]
  split_ifs <;> rfl

@[simp] theorem scheduleCpuTurn_winner (room : Room) :
    (scheduleCpuTurn room).winner = room.winner := by
  simp only [scheduleCpuTurn]
  split_ifs <;> rfl

@[simp] theorem scheduleCpuTurn_hands (room : Room) :
    (scheduleCpuTurn room).hands = room.hands := by
  simp only [scheduleCpuTurn]
  split_ifs <;> rfl

@[simp] theorem scheduleCpuTurn_unoStatus (room : Room) :
    (scheduleCpuTurn room).unoStatus = room.unoStatus := by
  simp only [scheduleCpuTurn]
  split_ifs <;> rfl

@[simp] theorem scheduleCpuTurn_players (room : Room) :
    (scheduleCpuTurn room).players = room.players := by
  simp only [scheduleCpuTurn]
  split_ifs <;> rfl

@[simp] theorem scheduleCpuTurn_message (room : Room) :
    (scheduleCpuTurn room).message = room.message := by
  simp only [scheduleCpuTurn]
  split_ifs <;> rfl

@[simp] theorem scheduleCpuTurn_dealAcks (room : Room) :
    (scheduleCpuTurn room).dealAcks = room.dealAcks := by
  simp only [scheduleCpuTurn]
  split_ifs <;> rfl

@[simp] theorem scheduleCpuTurn_gameId (room : Room) :
    (scheduleCpuTurn room).gameId = room.gameId := by
  simp only [scheduleCpuTurn]
  split_ifs <;> rfl

@[simp] theorem scheduleCpuTurn_turnTimeout (room : Room) :
    (scheduleCpuTurn room).turnTimeout = room.turnTimeout := by
  simp only [scheduleCpuTurn]
  split_ifs <;> rfl

@[simp] theorem setTurnTimer_phase (room : Room) :
    (setTurnTimer room).phase = room.phase := by
  simp only [setTurnTimer]
  repeat' split
  all_goals simp

@[simp] theorem setTurnTimer_currentTurn (room : Room) :
    (setTurnTimer room).currentTurn = room.currentTurn := by
  simp only [setTurnTimer]
  repeat' split
  all_goals simp

@[simp] theorem setTurnTimer_isGameOver (room : Room) :
    (setTurnTimer room).isGameOver = room.isGameOver := by
  simp only [setTurnTimer]
  repeat' split
  all_goals simp

@[simp] theorem setTurnTimer_winner (room : Room) :
    (setTurnTimer room).winner = room.winner := by
  simp only [setTurnTimer]
  repeat' split
  all_goals simp

@[simp] theorem setTurnTimer_hands (room : Room) :
    (setTurnTimer room).hands = room.hands := by
  simp only [setTurnTimer]
  repeat' split
  all_goals simp

@[simp] theorem setTurnTimer_unoStatus (room : Room) :
    (setTurnTimer room).unoStatus = room.unoStatus := by
  simp only [setTurnTimer]
  repeat' split
  all_goals simp

@[simp] theorem setTurnTimer_players (room : Room) :
    (setTurnTimer room).players = room.players := by
  simp only [setTurnTimer]
  repeat' split
  all_goals simp

@[simp] theorem setTurnTimer_message (room : Room) :
    (setTurnTimer room).message = room.message := by
  simp only [setTurnTimer]
  repeat' split
  all_goals simp

@[simp] theorem setTurnTimer_dealAcks (room : Room) :
    (setTurnTimer room).dealAcks = room.dealAcks := by
  simp only [setTurnTimer]
  repeat' split
  all_goals simp

@[simp] theorem setTurnTimer_gameId (room : Room) :
    (setTurnTimer room).gameId = room.gameId := by
  simp only [setTurnTimer]
  repeat' split
  all_goals simp

theorem foldl_preserve {α β γ : Type} (f : β → α → β) (proj : β → γ)
    (h : ∀ b a, proj (f b a) = proj b) (l : List α) (b : β) :
    proj (l.foldl f b) = proj b := by
  induction l generalizing b with
  | nil => rfl
  | cons x xs ih => rw [List.foldl_cons, ih, h]

theorem dealSeat_preserve {γ : Type} (sh : List Card → List Card)
    (proj : Room → γ)
    (hset : ∀ (r : Room) pid h, proj (setHand r pid h) = proj r)
    (hdraw : ∀ r : Room, proj ((drawOne sh r).2) = proj r)
    (r : Room) (pid? : Option String) : proj (dealSeat sh r pid?) = proj r := by
  unfold dealSeat
  cases pid? with
  | none => split <;> rfl
  | some pid =>
    split
    · rfl
    · cases hp : (drawOne sh r).1 with
      | none => simp only [hp]; exact hdraw r
      | some c => simp only [hp]; rw [hset, hdraw]

theorem dealRounds_preserve {γ : Type} (sh : List Card → List Card)
    (proj : Room → γ)
    (hset : ∀ (r : Room) pid h, proj (setHand r pid h) = proj r)
    (hdraw : ∀ r : Room, proj ((drawOne sh r).2) = proj r)
    (room : Room) : proj (dealRounds sh room) = proj room := by
  unfold dealRounds
  apply foldl_preserve
  intro b _
  apply foldl_preserve
  intro b' a'
  exact dealSeat_preserve sh proj hset hdraw b' a'

@[simp] theorem dealRounds_dealAcks (sh : List Card → List Card)
    (room : Room) : (dealRounds sh room).dealAcks = room.dealAcks :=
  dealRounds_preserve sh Room.dealAcks (fun _ _ _ => rfl) (fun _ => rfl) room

@[simp] theorem dealRounds_gameId (sh : List Card → List Card)
    (room : Room) : (dealRounds sh room).gameId = room.gameId :=
  dealRounds_preserve sh Room.gameId (fun _ _ _ => rfl) (fun _ => rfl) room

@[simp] theorem dealRounds_isCpuGame (sh : List Card → List Card)
    (room : Room) : (dealRounds sh room).isCpuGame = room.isCpuGame :=
  dealRounds_preserve sh Room.isCpuGame (fun _ _ _ => rfl) (fun _ => rfl) room

theorem mem_ackInsert_self (l : List String) (sid : String) :
    sid ∈ ackInsert l sid := by
  unfold ackInsert
  split_ifs with h
  · exact h
  · simp

theorem getAcks_congr (r1 r2 : Room) (g : Nat)
    (h : r1.dealAcks = r2.dealAcks) : getAcks r1 g = getAcks r2 g := by
  unfold getAcks
  rw [h]

theorem startPlayingIfReady_not_ready (now : Nat) (room : Room)
    (h : (seatAcked (getAcks room room.gameId) (room.players.getD 0 none) &&
          seatAcked (getAcks room room.gameId) (room.players.getD 1 none))
        = false) :
    startPlayingIfReady now room = ⟨room, 0, none⟩ := by
  simp only [startPlayingIfReady]
  rw [h]
  simp

theorem startPlayingIfReady_ready (now : Nat) (room : Room)
    (h : (seatAcked (getAcks room room.gameId) (room.players.getD 0 none) &&
          seatAcked (getAcks room room.gameId) (room.players.getD 1 none))
        = true) :
    startPlayingIfReady now room =
      if room.currentTurn = some CPU_ID
      then ⟨scheduleCpuTurn { room with phase := "playing", message := msgGameStarted, lastMoveAt := now }, 1, none⟩
      else ⟨setTurnTimer { room with phase := "playing", message := msgGameStarted, lastMoveAt := now }, 1, none⟩ := by
  simp only [startPlayingIfReady]
  rw [h]
  simp

theorem startPlayingIfReady_transition (now : Nat) (room : Room)
    (hph : room.phase ≠ "playing")
    (htrans : (startPlayingIfReady now room).room.phase = "playing") :
    seatAcked (getAcks room room.gameId) (room.players.getD 0 none) = true ∧
    seatAcked (getAcks room room.gameId) (room.players.getD 1 none) = true ∧
    (startPlayingIfReady now room).room.dealAcks = room.dealAcks ∧
    (startPlayingIfReady now room).room.gameId = room.gameId := by
  by_cases hr : (seatAcked (getAcks room room.gameId) (room.players.getD 0 none) &&
      seatAcked (getAcks room room.gameId) (room.players.getD 1 none)) = true
  · simp only [Bool.and_eq_true] at hr
    obtain ⟨h0, h1⟩ := hr
    have hr : (seatAcked (getAcks room room.gameId) (room.players.getD 0 none) &&
        seatAcked (getAcks room room.gameId) (room.players.getD 1 none)) = true := by
      rw [h0, h1]
      rfl
    rw [startPlayingIfReady_ready now room hr]
    refine ⟨h0, h1, ?_, ?_⟩ <;> split_ifs <;> simp
  · have hf : (seatAcked (getAcks room room.gameId) (room.players.getD 0 none) &&
        seatAcked (getAcks room room.gameId) (room.players.getD 1 none)) = false := by
      simpa using hr
    rw [startPlayingIfReady_not_ready now room hf] at htrans
    exact absurd htrans hph

theorem startPlayingIfReady_arms (now : Nat) (room : Room) (t : String)
    (hph : room.phase ≠ "playing") (hgo : room.isGameOver = false)
    (ht : room.currentTurn = some t)
    (hcpu : t = CPU_ID → room.isCpuGame = true)
    (htt : room.turnTimeout = none) (hct : room.cpuTimer = false)
    (htrans : (startPlayingIfReady now room).room.phase = "playing") :
    (if t = CPU_ID
     then (startPlayingIfReady now room).room.cpuTimer = true ∧
          (startPlayingIfReady now room).room.turnTimeout = none
     else (startPlayingIfReady now room).room.turnTimeout = some t ∧
          (startPlayingIfReady now room).room.cpuTimer = false) := by
  by_cases hr : (seatAcked (getAcks room room.gameId) (room.players.getD 0 none) &&
      seatAcked (getAcks room room.gameId) (room.players.getD 1 none)) = true
  · rw [startPlayingIfReady_ready now room hr]
    by_cases hb : t = CPU_ID
    · simp [hb, ht, scheduleCpuTurn, hcpu hb, hgo, htt]
    · simp [hb, ht, setTurnTimer, scheduleCpuTurn, hgo, hct, htt]
  · have hf : (seatAcked (getAcks room room.gameId) (room.players.getD 0 none) &&
        seatAcked (getAcks room room.gameId) (room.players.getD 1 none)) = false := by
      simpa using hr
    rw [startPlayingIfReady_not_ready now room hf] at htrans
    exact absurd htrans hph

theorem dealSetup_isCpuGame (sh : List Card → List Card) (now si : Nat)
    (wc : String) (room : Room) :
    (dealSetup sh now si wc room).isCpuGame = room.isCpuGame := by
  simp only [dealSetup]
  simp

theorem cpuAck_mem (room : Room) (h : room.isCpuGame = true) :
    CPU_ID ∈ getAcks (cpuAck room) (cpuAck room).gameId := by
  unfold cpuAck
  rw [h]
  simp only [ite_true, if_true]
  simp [getAcks, lookup_assocSet_self, mem_ackInsert_self]

theorem dealDone_eq (now : Nat) (room : Room) (sid : String) (gen : Nat)
    (hg : ¬ room.gameId ≠ gen) :
    dealDone now room sid gen = startPlayingIfReady now
      { room with dealAcks := assocSet room.dealAcks gen (ackInsert (getAcks room gen) sid) } := by
  simp only [dealDone, if_neg hg]

/-- C4: the phase moves from dealing to playing only once both occupied
seats are recorded as acknowledging the current generation (a CPU seat is
recorded as acknowledging instantly at deal time); an acknowledgment for a
stale generation leaves the room unchanged with no broadcast; and on the
transition exactly one of the human turn timer and the CPU think-time
schedule is armed, selected by who holds the turn. -/
theorem dealDone_barrier :
    (∀ now (room : Room) sid gen, room.gameId ≠ gen →
      dealDone now room sid gen = ⟨room, 0, none⟩) ∧
    (∀ now (room : Room) sid gen, room.phase = "dealing" →
      (dealDone now room sid gen).room.phase = "playing" →
      gen = room.gameId ∧
      seatAcked (getAcks (dealDone now room sid gen).room room.gameId)
        (room.players.getD 0 none) = true ∧
      seatAcked (getAcks (dealDone now room sid gen).room room.gameId)
        (room.players.getD 1 none) = true) ∧
    (∀ now (room : Room) sid gen t, room.phase = "dealing" →
      room.isGameOver = false → room.currentTurn = some t →
      (t = CPU_ID → room.isCpuGame = true) →
      room.turnTimeout = none → room.cpuTimer = false →
      (dealDone now room sid gen).room.phase = "playing" →
      (if t = CPU_ID
       then (dealDone now room sid gen).room.cpuTimer = true ∧
            (dealDone now room sid gen).room.turnTimeout = none
       else (dealDone now room sid gen).room.turnTimeout = some t ∧
            (dealDone now room sid gen).room.cpuTimer = false)) ∧
    (∀ sh now si wc (room : Room), room.isCpuGame = true →
      CPU_ID ∈ getAcks (dealInitialCards sh now si wc room).room
        (dealInitialCards sh now si wc room).room.gameId) := by
  refine ⟨?_, ?_, ?_, ?_⟩
  · intro now room sid gen hg
    simp [dealDone, hg]
  · intro now room sid gen hph htrans
    by_cases hg : room.gameId ≠ gen
    · exfalso
      simp only [dealDone, if_pos hg] at htrans
      rw [hph] at htrans
      exact absurd htrans (by decide)
    · have hgen : gen = room.gameId := (not_ne_iff.mp hg).symm
      rw [dealDone_eq now room sid gen hg] at htrans ⊢
      generalize hR : ({ room with dealAcks := assocSet room.dealAcks gen (ackInsert (getAcks room gen) sid) } : Room) = R at htrans ⊢
      have hRphase : R.phase = room.phase := by rw [← hR]
      have hRplayers : R.players = room.players := by rw [← hR]
      have hRgameId : R.gameId = room.gameId := by rw [← hR]
      have hph2 : R.phase ≠ "playing" := by
        rw [hRphase, hph]
        decide
      have hsp := startPlayingIfReady_transition now R hph2 htrans
      have h0 := hsp.1
      have h1 := hsp.2.1
      rw [hRgameId, hRplayers] at h0 h1
      have hda := hsp.2.2.1
      refine ⟨hgen, ?_, ?_⟩
      · rw [getAcks_congr _ _ room.gameId hda]
        exact h0
      · rw [getAcks_congr _ _ room.gameId hda]
        exact h1
  · intro now room sid gen t hph hgo ht hcpu htt hct htrans
    by_cases hg : room.gameId ≠ gen
    · exfalso
      simp only [dealDone, if_pos hg] at htrans
      rw [hph] at htrans
      exact absurd htrans (by decide)
    · rw [dealDone_eq now room sid gen hg] at htrans ⊢
      generalize hR : ({ room with dealAcks := assocSet room.dealAcks gen (ackInsert (getAcks room gen) sid) } : Room) = R at htrans ⊢
      have hRphase : R.phase = room.phase := by rw [← hR]
      have hph2 : R.phase ≠ "playing" := by
        rw [hRphase, hph]
        decide
      have hRgo : R.isGameOver = false := by rw [← hR]; exact hgo
      have hRt : R.currentTurn = some t := by rw [← hR]; exact ht
      have hRcpu : t = CPU_ID → R.isCpuGame = true := by
        intro hb
        rw [← hR]
        exact hcpu hb
      have hRtt : R.turnTimeout = none := by rw [← hR]; exact htt
      have hRct : R.cpuTimer = false := by rw [← hR]; exact hct
      exact startPlayingIfReady_arms now R t hph2 hRgo hRt hRcpu hRtt hRct htrans
  · intro sh now si wc room hcpu
    simp only [dealInitialCards]
    exact cpuAck_mem _ (by rw [dealSetup_isCpuGame]; exact hcpu)

/-- Witness for C4: a stale acknowledgment is dropped, and the completing
acknowledgment of generation 1 transitions the concrete dealing room to
playing with exactly the human timer armed. -/
theorem dealDone_barrier_witness :
    dealDone 3 roomC4 "bob" 0 = ⟨roomC4, 0, none⟩ ∧
    (if "bob" = CPU_ID
     then (dealDone 3 roomC4 "bob" 1).room.cpuTimer = true ∧
          (dealDone 3 roomC4 "bob" 1).room.turnTimeout = none
     else (dealDone 3 roomC4 "bob" 1).room.turnTimeout = some "bob" ∧
          (dealDone 3 roomC4 "bob" 1).room.cpuTimer = false) :=
  ⟨dealDone_barrier.1 3 roomC4 "bob" 0 (by decide),
   dealDone_barrier.2.2.1 3 roomC4 "bob" 1 "bob" (by decide) (by decide)
     (by decide) (by decide) (by decide) (by decide) (by decide)⟩

/-! Frame lemmas for the penalty check and the draw-effect loops. -/

@[simp] theorem drawNToHand_players (sh : List Card → List Card) (r : Room)
    (pid : String) (n : Nat) : (drawNToHand sh r pid n).players = r.players := by
  induction n generalizing r with
  | zero => rfl
  | succ m ih =>
    simp only [drawNToHand]
    cases hp : (drawOne sh r).1 with
    | none =>
      simp only [hp]
      rw [ih]
      simp
    | some c =>
      simp only [hp]
      rw [ih]
      simp [setHand]

@[simp] theorem drawNToHand_isGameOver (sh : List Card → List Card)
    (r : Room) (pid : String) (n : Nat) :
    (drawNToHand sh r pid n).isGameOver = r.isGameOver := by
  induction n generalizing r with
  | zero => rfl
  | succ m ih =>
    simp only [drawNToHand]
    cases hp : (drawOne sh r).1 with
    | none =>
      simp only [hp]
      rw [ih]
      simp
    | some c =>
      simp only [hp]
      rw [ih]
      simp [setHand]

@[simp] theorem drawNToHand_winner (sh : List Card → List Card) (r : Room)
    (pid : String) (n : Nat) : (drawNToHand sh r pid n).winner = r.winner := by
  induction n generalizing r with
  | zero => rfl
  | succ m ih =>
    simp only [drawNToHand]
    cases hp : (drawOne sh r).1 with
    | none =>
      simp only [hp]
      rw [ih]
      simp
    | some c =>
      simp only [hp]
      rw [ih]
      simp [setHand]

@[simp] theorem drawNToHand_unoStatus (sh : List Card → List Card) (r : Room)
    (pid : String) (n : Nat) :
    (drawNToHand sh r pid n).unoStatus = r.unoStatus := by
  induction n generalizing r with
  | zero => rfl
  | succ m ih =>
    simp only [drawNToHand]
    cases hp : (drawOne sh r).1 with
    | none =>
      simp only [hp]
      rw [ih]
      simp
    | some c =>
      simp only [hp]
      rw [ih]
      simp [setHand]

@[simp] theorem drawNToHand_currentTurn (sh : List Card → List Card)
    (r : Room) (pid : String) (n : Nat) :
    (drawNToHand sh r pid n).currentTurn = r.currentTurn := by
  induction n generalizing r with
  | zero => rfl
  | succ m ih =>
    simp only [drawNToHand]
    cases hp : (drawOne sh r).1 with
    | none =>
      simp only [hp]
      rw [ih]
      simp
    | some c =>
      simp only [hp]
      rw [ih]
      simp [setHand]

theorem getHand_drawNToHand_ne (sh : List Card → List Card) (r : Room)
    (pid : String) (n : Nat) (q : String) (hq : q ≠ pid) :
    getHand (drawNToHand sh r pid n) q = getHand r q := by
  induction n generalizing r with
  | zero => rfl
  | succ m ih =>
    simp only [drawNToHand]
    cases hp : (drawOne sh r).1 with
    | none =>
      simp only [hp]
      rw [ih]
      simp
    | some c =>
      simp only [hp]
      rw [ih, getHand_setHand_ne _ _ _ _ hq]
      simp

@[simp] theorem drawNTo_players (sh : List Card → List Card) (r : Room)
    (o : Option String) (n : Nat) : (drawNTo sh r o n).players = r.players := by
  cases o <;> simp [drawNTo]

@[simp] theorem drawNTo_isGameOver (sh : List Card → List Card) (r : Room)
    (o : Option String) (n : Nat) :
    (drawNTo sh r o n).isGameOver = r.isGameOver := by
  cases o <;> simp [drawNTo]

@[simp] theorem drawNTo_winner (sh : List Card → List Card) (r : Room)
    (o : Option String) (n : Nat) : (drawNTo sh r o n).winner = r.winner := by
  cases o <;> simp [drawNTo]

@[simp] theorem drawNTo_unoStatus (sh : List Card → List Card) (r : Room)
    (o : Option String) (n : Nat) :
    (drawNTo sh r o n).unoStatus = r.unoStatus := by
  cases o <;> simp [drawNTo]

@[simp] theorem drawNTo_currentTurn (sh : List Card → List Card) (r : Room)
    (o : Option String) (n : Nat) :
    (drawNTo sh r o n).currentTurn = r.currentTurn := by
  cases o <;> simp [drawNTo]

theorem getHand_drawNTo_ne (sh : List Card → List Card) (r : Room)
    (o : Option String) (n : Nat) (q : String)
    (hq : ∀ p, o = some p → q ≠ p) :
    getHand (drawNTo sh r o n) q = getHand r q := by
  cases o with
  | none => rfl
  | some p => exact getHand_drawNToHand_ne sh r p n q (hq p rfl)

theorem findOtherPlayer_ne (players : List (Option String)) (pid q : String)
    (h : findOtherPlayer players pid = some q) : q ≠ pid := by
  unfold findOtherPlayer at h
  obtain ⟨o, _, ho⟩ := List.exists_of_findSome?_eq_some h
  cases o with
  | none => simp at ho
  | some p =>
    have ho2 : (if p ≠ "" ∧ p ≠ pid then some p else none) = some q := ho
    by_cases hp : p ≠ "" ∧ p ≠ pid
    · rw [if_pos hp] at ho2
      injection ho2 with hpq
      exact hpq ▸ hp.2
    · rw [if_neg hp] at ho2
      exact absurd ho2 (by simp)

theorem removeFirstById_length (hand : List Card) (i : Nat)
    (h : ∃ c ∈ hand, c.id = i) :
    (removeFirstById hand i).length + 1 = hand.length := by
  induction hand with
  | nil => simp at h
  | cons c rest ih =>
    unfold removeFirstById
    by_cases hc : c.id = i
    · simp [hc]
    · obtain ⟨d, hd, hdi⟩ := h
      rcases List.mem_cons.mp hd with hd1 | hd2
      · exact absurd (hd1 ▸ hdi) hc
      · simp only [hc, if_neg, ite_false, List.length_cons]
        rw [← ih ⟨d, hd2, hdi⟩]

@[simp] theorem penalty_players (sh : List Card → List Card) (now : Nat)
    (room : Room) (pid : String) (hand : List Card) (n : Nat) :
    (maybeApplyUnoPenalty sh now room pid hand n).1.players = room.players := by
  simp only [maybeApplyUnoPenalty]
  split_ifs <;> simp [setUno]

@[simp] theorem penalty_isGameOver (sh : List Card → List Card) (now : Nat)
    (room : Room) (pid : String) (hand : List Card) (n : Nat) :
    (maybeApplyUnoPenalty sh now room pid hand n).1.isGameOver
      = room.isGameOver := by
  simp only [maybeApplyUnoPenalty]
  split_ifs <;> simp [setUno]

@[simp] theorem penalty_winner (sh : List Card → List Card) (now : Nat)
    (room : Room) (pid : String) (hand : List Card) (n : Nat) :
    (maybeApplyUnoPenalty sh now room pid hand n).1.winner = room.winner := by
  simp only [maybeApplyUnoPenalty]
  split_ifs <;> simp [setUno]

@[simp] theorem penalty_hands (sh : List Card → List Card) (now : Nat)
    (room : Room) (pid : String) (hand : List Card) (n : Nat) :
    (maybeApplyUnoPenalty sh now room pid hand n).1.hands = room.hands := by
  simp only [maybeApplyUnoPenalty]
  split_ifs <;> simp [setUno]

@[simp] theorem penalty_unoStatus (sh : List Card → List Card) (now : Nat)
    (room : Room) (pid : String) (hand : List Card) (n : Nat) :
    (maybeApplyUnoPenalty sh now room pid hand n).1.unoStatus
      = assocSet room.unoStatus pid false := by
  simp only [maybeApplyUnoPenalty]
  split_ifs <;> simp [setUno]

theorem penalty_hand_ge (sh : List Card → List Card) (now : Nat)
    (room : Room) (pid : String) (hand : List Card) (n : Nat) :
    hand.length ≤ (maybeApplyUnoPenalty sh now room pid hand n).2.length := by
  simp only [maybeApplyUnoPenalty]
  split_ifs
  · cases h1 : (drawOne sh (setUno room pid false)).1 <;>
      cases h2 : (drawOne sh (drawOne sh (setUno room pid false)).2).1 <;>
      simp [h1, h2]
  · exact Nat.le_refl _

@[simp] theorem playCommit_players (room : Room) (pid : String) (card : Card) :
    (playCommit room pid card).players = room.players := rfl

@[simp] theorem playCommit_isGameOver (room : Room) (pid : String)
    (card : Card) : (playCommit room pid card).isGameOver = room.isGameOver := rfl

@[simp] theorem playCommit_winner (room : Room) (pid : String) (card : Card) :
    (playCommit room pid card).winner = room.winner := rfl

@[simp] theorem playCommit_deck (room : Room) (pid : String) (card : Card) :
    (playCommit room pid card).deck = room.deck := rfl

@[simp] theorem playCommit_discardPile (room : Room) (pid : String)
    (card : Card) :
    (playCommit room pid card).discardPile = room.discardPile ++ [card] := rfl

@[simp] theorem getUno_playCommit (room : Room) (pid q : String)
    (card : Card) : getUno (playCommit room pid card) q = getUno room q := rfl

@[simp] theorem getHand_playCommit_self (room : Room) (pid : String)
    (card : Card) :
    getHand (playCommit room pid card) pid
      = removeFirstById (getHand room pid) card.id := by
  unfold playCommit getHand setHand
  simp [lookup_assocSet_self]

theorem penalty_len (sh : List Card → List Card)
    (hsh : ∀ l : List Card, (sh l).length = l.length) (now : Nat)
    (room : Room) (pid : String) (hand : List Card)
    (hu : getUno room pid = false)
    (havail : 3 ≤ room.deck.length + room.discardPile.length)
    (hd : 1 ≤ room.discardPile.length) :
    (maybeApplyUnoPenalty sh now room pid hand 1).2.length
      = hand.length + 2 := by
  simp only [maybeApplyUnoPenalty]
  rw [if_pos ⟨by trivial, hu⟩]
  have e0deck : (setUno room pid false).deck = room.deck := rfl
  have e0disc : (setUno room pid false).discardPile = room.discardPile := rfl
  have h1 := drawOne_some sh hsh (setUno room pid false)
    (by rw [e0deck, e0disc]; omega)
  obtain ⟨c1, hc1⟩ := Option.isSome_iff_exists.mp h1.1
  have hpos1 := drawOne_discard_pos sh (setUno room pid false)
    (by rw [e0disc]; exact hd)
  have ht := h1.2
  rw [e0deck, e0disc] at ht
  have h2 := drawOne_some sh hsh ((drawOne sh (setUno room pid false)).2)
    (by omega)
  obtain ⟨c2, hc2⟩ := Option.isSome_iff_exists.mp h2.1
  simp only [hc1, hc2]
  simp

@[simp] theorem setHand_players (room : Room) (pid : String) (h : List Card) :
    (setHand room pid h).players = room.players := rfl

@[simp] theorem setHand_isGameOver (room : Room) (pid : String)
    (h : List Card) : (setHand room pid h).isGameOver = room.isGameOver := rfl

@[simp] theorem setHand_winner (room : Room) (pid : String) (h : List Card) :
    (setHand room pid h).winner = room.winner := rfl

@[simp] theorem setHand_unoStatus (room : Room) (pid : String)
    (h : List Card) : (setHand room pid h).unoStatus = room.unoStatus := rfl

@[simp] theorem playCommit_unoStatus (room : Room) (pid : String)
    (card : Card) : (playCommit room pid card).unoStatus = room.unoStatus := rfl

@[simp] theorem getHand_setTurnTimer (room : Room) (q : String) :
    getHand (setTurnTimer room) q = getHand room q := by
  unfold getHand
  rw [setTurnTimer_hands]

@[simp] theorem getHand_scheduleCpuTurn (room : Room) (q : String) :
    getHand (scheduleCpuTurn room) q = getHand room q := by
  unfold getHand
  rw [scheduleCpuTurn_hands]

theorem lookup_hands_drawNToHand_ne (sh : List Card → List Card) (r : Room)
    (target : String) (n : Nat) (q : String) (h : q ≠ target) :
    (drawNToHand sh r target n).hands.lookup q = r.hands.lookup q := by
  induction n generalizing r with
  | zero => rfl
  | succ m ih =>
    simp only [drawNToHand]
    cases hp : (drawOne sh r).1 with
    | none =>
      simp only [hp]
      rw [ih]
      simp
    | some c =>
      simp only [hp]
      rw [ih]
      simp [setHand, lookup_assocSet_ne _ _ _ _ h]

theorem lookup_hands_drawNTo_ne (sh : List Card → List Card) (r : Room)
    (o : Option String) (n : Nat) (q : String)
    (hq : ∀ p, o = some p → q ≠ p) :
    (drawNTo sh r o n).hands.lookup q = r.hands.lookup q := by
  cases o with
  | none => rfl
  | some p => exact lookup_hands_drawNToHand_ne sh r p n q (hq p rfl)

theorem lookup_hands_drawNTo_ne_some (sh : List Card → List Card) (r : Room)
    (opp : String) (n : Nat) (q : String) (h : q ≠ opp) :
    (drawNTo sh r (some opp) n).hands.lookup q = r.hands.lookup q :=
  lookup_hands_drawNTo_ne sh r (some opp) n q
    (fun p hp => by cases hp; exact h)

theorem resolvePlay_core (sh : List Card → List Card)
    (hsh : ∀ l : List Card, (sh l).length = l.length) (now : Nat)
    (room : Room) (pid : String) (card : Card)
    (hrm : (removeFirstById (getHand room pid) card.id).length = 1)
    (hu : getUno room pid = false)
    (hgo : room.isGameOver = false) :
    (resolvePlay sh now room pid card).room.isGameOver = false ∧
    (resolvePlay sh now room pid card).room.winner = room.winner ∧
    getUno (resolvePlay sh now room pid card).room pid = false ∧
    (2 ≤ room.deck.length + room.discardPile.length →
      (getHand (resolvePlay sh now room pid card).room pid).length = 3) := by
  have hH : getHand (playCommit room pid card) pid
      = removeFirstById (getHand room pid) card.id :=
    getHand_playCommit_self room pid card
  have hHlen : (getHand (playCommit room pid card) pid).length = 1 := by
    rw [hH]
    exact hrm
  have hge := penalty_hand_ge sh now (playCommit room pid card) pid
    (getHand (playCommit room pid card) pid)
    ((getHand (playCommit room pid card) pid).length)
  have hne : ¬ ((maybeApplyUnoPenalty sh now (playCommit room pid card) pid
      (getHand (playCommit room pid card) pid)
      ((getHand (playCommit room pid card) pid).length)).2.length = 0) := by
    omega
  simp only [resolvePlay]
  rw [if_neg hne]
  refine ⟨?_, ?_, ?_, ?_⟩
  · split_ifs <;> simp [setHand, hgo]
  · split_ifs <;> simp [setHand]
  · split_ifs <;> simp [getUno, setHand, lookup_assocSet_self]
  · intro havail
    have hlen3 : (maybeApplyUnoPenalty sh now (playCommit room pid card) pid
        (getHand (playCommit room pid card) pid)
        ((getHand (playCommit room pid card) pid).length)).2.length = 3 := by
      rw [hHlen]
      rw [penalty_len sh hsh now (playCommit room pid card) pid _ hu
        (by simp; omega) (by simp)]
      rw [hHlen]
    simp only [setHand_players, penalty_players, playCommit_players]
    generalize hPR : maybeApplyUnoPenalty sh now (playCommit room pid card)
      pid (getHand (playCommit room pid card) pid)
      ((getHand (playCommit room pid card) pid).length) = PR at hlen3 ⊢
    cases hop : findOtherPlayer room.players pid with
    | none =>
      split_ifs <;>
        simp [drawNTo, getHand, setHand, lookup_assocSet_self, hlen3]
    | some opp =>
      have hneq : pid ≠ opp :=
        Ne.symm (findOtherPlayer_ne room.players pid opp hop)
      split_ifs <;>
        simp [getHand, setHand, lookup_hands_drawNTo_ne_some, hneq,
          lookup_assocSet_self, hlen3]

theorem applyPlay_eq_resolve (sh : List Card → List Card) (now : Nat)
    (room : Room) (pid : String) (cid : Nat) (col? : Option String)
    (card : Card)
    (hfind : (getHand room pid).find? (fun c => c.id == cid) = some card)
    (herr : (applyPlay sh now room pid cid col?).errorToActor = none) :
    ∃ card2 : Card, card2.id = card.id ∧ card2.ctype = card.ctype ∧
      applyPlay sh now room pid cid col? = resolvePlay sh now room pid card2 := by
  simp only [applyPlay, hfind] at herr ⊢
  by_cases hw : card.ctype = "wild" ∨ card.ctype = "wild4"
  · cases col? with
    | none => simp [hw] at herr
    | some col =>
      by_cases hc : col ∈ colors
      · exact ⟨{ card with color := some col }, rfl, rfl, by simp [hw, hc]⟩
      · simp [hw, hc] at herr
  · by_cases hp : canPlay (some card) room.discardPile.getLast? = true
    · exact ⟨card, rfl, rfl, by simp [hw, hp]⟩
    · simp [hw, hp] at herr

/-- C1 amended: for every play resolved by `applyPlay` during the playing
phase by the current turn holder in which removing the played card leaves
the hand of the actor with exactly one card and the called-last-card flag is
not set, the flag is cleared, up to two penalty cards (as many as the draw
pile and recyclable discard can supply) are drawn into the hand of the
actor strictly before the win check, and the actor never wins on that move;
whenever the draw pile and discard pile together hold at least two
suppliable cards, the resolution ends with the actor holding exactly
3 cards. -/
theorem applyPlay_uno_penalty (sh : List Card → List Card)
    (hsh : ∀ l : List Card, (sh l).length = l.length) (now : Nat)
    (room : Room) (pid : String) (cid : Nat) (col? : Option String)
    (card : Card)
    (_hphase : room.phase = "playing") (_hturn : room.currentTurn = some pid)
    (hgo : room.isGameOver = false)
    (hfind : (getHand room pid).find? (fun c => c.id == cid) = some card)
    (hlen : (getHand room pid).length = 2)
    (huno : getUno room pid = false)
    (herr : (applyPlay sh now room pid cid col?).errorToActor = none) :
    (applyPlay sh now room pid cid col?).room.isGameOver = false ∧
    (applyPlay sh now room pid cid col?).room.winner = room.winner ∧
    getUno (applyPlay sh now room pid cid col?).room pid = false ∧
    (2 ≤ room.deck.length + room.discardPile.length →
      (getHand (applyPlay sh now room pid cid col?).room pid).length = 3) := by
  obtain ⟨card2, hid2, hty2, heq⟩ :=
    applyPlay_eq_resolve sh now room pid cid col? card hfind herr
  rw [heq]
  have hmem : card ∈ getHand room pid := List.mem_of_find?_eq_some hfind
  have hidc : card.id = cid := by
    have hfs := List.find?_some hfind
    simpa using hfs
  have hrm : (removeFirstById (getHand room pid) card2.id).length = 1 := by
    rw [hid2]
    have h2 := removeFirstById_length (getHand room pid) card.id
      ⟨card, hmem, rfl⟩
    omega
  exact resolvePlay_core sh hsh now room pid card2 hrm huno hgo

/-- Witness for the amended C1: the penalty-eligible play at a concrete
room with two drawable cards ends with a hand of exactly three cards and no
win. -/
theorem applyPlay_uno_penalty_witness :
    (applyPlay id 0 roomW1 "alice" 10 none).room.isGameOver = false ∧
    (applyPlay id 0 roomW1 "alice" 10 none).room.winner = roomW1.winner ∧
    getUno (applyPlay id 0 roomW1 "alice" 10 none).room "alice" = false ∧
    (2 ≤ roomW1.deck.length + roomW1.discardPile.length →
      (getHand (applyPlay id 0 roomW1 "alice" 10 none).room "alice").length = 3) :=
  applyPlay_uno_penalty id (fun _ => rfl) 0 roomW1 "alice" 10 none cRed5
    (by decide) (by decide) (by decide) (by decide) (by decide) (by decide)
    (by decide)

theorem resolvePlay_turn (sh : List Card → List Card) (now : Nat)
    (room : Room) (pid : String) (card : Card) (opp : String)
    (hopp : findOtherPlayer room.players pid = some opp)
    (hnotover : (resolvePlay sh now room pid card).room.isGameOver = false) :
    (resolvePlay sh now room pid card).room.currentTurn =
      some (if card.ctype = "skip" ∨ card.ctype = "reverse" ∨
            card.ctype = "draw2" ∨ card.ctype = "wild4" then pid else opp) := by
  simp only [resolvePlay] at hnotover ⊢
  by_cases h0 : (maybeApplyUnoPenalty sh now (playCommit room pid card) pid
      (getHand (playCommit room pid card) pid)
      ((getHand (playCommit room pid card) pid).length)).2.length = 0
  · rw [if_pos h0] at hnotover
    simp at hnotover
  · rw [if_neg h0] at hnotover ⊢
    simp only [setHand_players, penalty_players, playCommit_players]
    rw [hopp]
    split_ifs <;> simp_all

/-- C2 amended: for every successful play that does not end the game, with
the other seat occupied, the acting player keeps the turn if and only if the
played card is a Skip, Reverse, Draw-Two or Wild-Draw-Four; a plain number
card and also a plain Wild pass the turn to the opponent. -/
theorem playCard_turn_rule (sh : List Card → List Card) (now : Nat)
    (room : Room) (sid : String) (cid : Nat) (col? : Option String)
    (card : Card) (opp : String)
    (hfind : (getHand room sid).find? (fun c => c.id == cid) = some card)
    (hopp : findOtherPlayer room.players sid = some opp)
    (herr : (playCard sh now room sid cid col?).errorToActor = none)
    (hnotover : (playCard sh now room sid cid col?).room.isGameOver = false) :
    (playCard sh now room sid cid col?).room.currentTurn =
      some (if card.ctype = "skip" ∨ card.ctype = "reverse" ∨
            card.ctype = "draw2" ∨ card.ctype = "wild4" then sid else opp) := by
  by_cases hgo : room.isGameOver = true
  · simp only [playCard, if_pos hgo] at hnotover
    exact absurd hnotover (by simp [hgo])
  · have hgo2 : room.isGameOver = false := by simpa using hgo
    by_cases hph : room.phase = "playing"
    · by_cases hturn : room.currentTurn = some sid
      · have happ : playCard sh now room sid cid col?
            = applyPlay sh now room sid cid col? := by
          simp [playCard, hgo2, hph, hturn]
        rw [happ] at herr hnotover ⊢
        obtain ⟨card2, hid2, hty2, heq⟩ :=
          applyPlay_eq_resolve sh now room sid cid col? card hfind herr
        rw [heq] at hnotover ⊢
        have hturn2 := resolvePlay_turn sh now room sid card2 opp hopp hnotover
        rw [hty2] at hturn2
        exact hturn2
      · simp [playCard, hgo2, hph, hturn] at herr
    · simp [playCard, hgo2, hph] at herr

/-- Witness for the amended C2: a red Skip played at a concrete room keeps
the turn with the acting player. -/
theorem playCard_turn_rule_witness :
    (playCard id 0 roomW2 "alice" 30 none).room.currentTurn =
      some (if cRedSkip.ctype = "skip" ∨ cRedSkip.ctype = "reverse" ∨
            cRedSkip.ctype = "draw2" ∨ cRedSkip.ctype = "wild4"
            then "alice" else "bob") :=
  playCard_turn_rule id 0 roomW2 "alice" 30 none cRedSkip "bob"
    (by decide) (by decide) (by decide) (by decide)

end Uno
